import Mathlib

/-!
Verification of the VoidAI model-build orchestration front end.

This file gives a shallow embedding, in Lean, of the build-workflow code of
the repository — the `PromptBuilder` component (submit, training start, reset,
draft-model resume, result ranking) and the `IntentEditor` component
(field updates and model toggling) — and proves the specified properties of
that code.

Modelling conventions:
* JavaScript objects with optional fields become structures with
  Option-valued fields; an absent (undefined) field is `none`.
* JavaScript numbers that matter to the claims are rationals; `parseInt`
  returning NaN is modelled as `none : Option Int`.
* Asynchronous network calls are modelled by passing the outcome of each call in
  as an explicit environment value (`Except String α`: `.error m` is a
  thrown error whose displayed message is `m`); each handler returns,
  together with the new component state, the list of network calls it made.
* React `useState` setters become functional record updates on a single
  `BuilderState` record; the net effect of a handler on the state is the
  composition of the setter calls it performs on each control path.
-/

namespace VoidAI

/-- Scalar or small-object values that the intent editor writes into intent
fields: select/input values are strings or parsed numbers, and the
missing-strategy field holds a two-key object of strings. -/
inductive FieldVal where
  | str (s : String)
  | num (q : ℚ)
  | strat (numeric : Option String) (categorical : Option String)
deriving DecidableEq, Repr

/-- One entry of `search_space.models`: a model name and its params mapping
(empty when the editor adds the model). -/
structure ModelEntry where
  name : String
  params : List (String × FieldVal) := []
deriving DecidableEq, Repr

/-- The `task` object of an intent; every field is optional, mirroring the
loosely-typed JSON the backend returns. -/
structure Task where
  type : Option FieldVal := none
  metric : Option FieldVal := none
  target_column : Option FieldVal := none
  cv_folds : Option FieldVal := none
  test_size : Option FieldVal := none
deriving DecidableEq, Repr

/-- The `preprocessing` object of an intent. -/
structure Preprocessing where
  missing_strategy : Option FieldVal := none
  scaling : Option FieldVal := none
  encoding : Option FieldVal := none
deriving DecidableEq, Repr

/-- The `search_space` object of an intent. -/
structure SearchSpace where
  models : Option (List ModelEntry) := none
deriving DecidableEq, Repr

/-- An extracted (possibly user-edited) ML intent. -/
structure Intent where
  task : Option Task := none
  preprocessing : Option Preprocessing := none
  search_space : Option SearchSpace := none
deriving DecidableEq, Repr

/-- Keys accepted by `updateTask` in IntentEditor.tsx. -/
inductive TaskKey where
  | type
  | metric
  | target_column
  | cv_folds
  | test_size
deriving DecidableEq, Repr

/-- Keys accepted by `updatePreprocessing` in IntentEditor.tsx. -/
inductive PreprocKey where
  | missing_strategy
  | scaling
  | encoding
deriving DecidableEq, Repr

/-- Computed-key assignment on the task object, the Lean rendering of the
spread expression writing value `v` at key `k` of `task`. -/
def Task.set (t : Task) (k : TaskKey) (v : FieldVal) : Task :=
  match k with
  | .type => { t with type := some v }
  | .metric => { t with metric := some v }
  | .target_column => { t with target_column := some v }
  | .cv_folds => { t with cv_folds := some v }
  | .test_size => { t with test_size := some v }

/-- Field read on the task object at key `k`. -/
def Task.get (t : Task) (k : TaskKey) : Option FieldVal :=
  match k with
  | .type => t.type
  | .metric => t.metric
  | .target_column => t.target_column
  | .cv_folds => t.cv_folds
  | .test_size => t.test_size

/-- Computed-key assignment on the preprocessing object. -/
def Preprocessing.set (p : Preprocessing) (k : PreprocKey) (v : FieldVal) :
    Preprocessing :=
  match k with
  | .missing_strategy => { p with missing_strategy := some v }
  | .scaling => { p with scaling := some v }
  | .encoding => { p with encoding := some v }

/-- Field read on the preprocessing object at key `k`. -/
def Preprocessing.get (p : Preprocessing) (k : PreprocKey) : Option FieldVal :=
  match k with
  | .missing_strategy => p.missing_strategy
  | .scaling => p.scaling
  | .encoding => p.encoding

/-- IntentEditor.tsx `updateTask`: reads `intent.task` with an empty-object
fallback, writes `value` at `key`, and rebuilds the intent with the other
top-level fields spread through unchanged. -/
def updateTask (intent : Intent) (key : TaskKey) (value : FieldVal) : Intent :=
  let task := intent.task.getD {}
  { intent with task := some (task.set key value) }

/-- IntentEditor.tsx `updatePreprocessing`: same shape as `updateTask` for
the `preprocessing` object. -/
def updatePreprocessing (intent : Intent) (key : PreprocKey) (value : FieldVal) :
    Intent :=
  let preprocessing := intent.preprocessing.getD {}
  { intent with preprocessing := some (preprocessing.set key value) }

/-- Core of toggleModel on the models list: findIndex of the first entry
with the given name, then splice it out if found, else push a fresh entry
with empty params. -/
def toggleEntries (models : List ModelEntry) (modelName : String) : List ModelEntry :=
  match models.findIdx? (fun m => m.name == modelName) with
  | some existingIndex => models.eraseIdx existingIndex
  | none => models ++ [{ name := modelName, params := [] }]

/-- IntentEditor.tsx toggleModel: looks up the first entry of
search_space.models whose name equals modelName (findIndex); if found,
removes it in place (splice), otherwise appends a fresh entry with empty
params; the surrounding objects are rebuilt by spreads. -/
def toggleModel (intent : Intent) (modelName : String) : Intent :=
  let searchSpace := intent.search_space.getD {}
  let models := searchSpace.models.getD []
  let currentModels := toggleEntries models modelName
  { intent with search_space := some { searchSpace with models := some currentModels } }

/-- Convenience read of the models list of an intent, with the same
empty-object and empty-list fallbacks the editor uses. -/
def modelsOf (intent : Intent) : List ModelEntry :=
  (intent.search_space.getD {}).models.getD []

/-- Row of one experiment in the training response. -/
structure ExperimentResult where
  exp_id : String
  model : String := ""
  status : String
  cv_mean : Option ℚ := none
  test_score : Option ℚ := none
  training_time_seconds : Option ℚ := none
deriving DecidableEq, Repr

/-- Sort key of the results table: the JavaScript expression
`r.test_score || 0`, which yields 0 for an absent score (and for an exact
zero score, which is the same value). -/
def scoreKey (r : ExperimentResult) : ℚ :=
  r.test_score.getD 0

/-- The ranking pipeline of the results table in PromptBuilder.tsx:
a filter keeping status completed, then a sort by the comparator
comparing b.test_score or-else 0 against a.test_score or-else 0. The sort of JavaScript is a stable sort by the comparator; it is modelled by a
stable insertion sort under the descending-score relation. -/
def rankResults (results : List ExperimentResult) : List ExperimentResult :=
  List.insertionSort (fun a b => scoreKey b ≤ scoreKey a)
    (results.filter (fun r => r.status == "completed"))

/-- Validation block of an extraction response. -/
structure ValidationInfo where
  is_valid : Bool
  warnings : Option (List String) := none
deriving DecidableEq, Repr

/-- Dataset profile block of an extraction response (empty object when all
fields are absent). -/
structure DatasetInfo where
  dataset_id : Option Int := none
  columns : Option (List String) := none
  shape : Option (Int × Int) := none
deriving DecidableEq, Repr

/-- Compiled experiment-plan payload of an extraction response; its loosely
typed JSON contents are carried as string-keyed entries, no claim inspects
them beyond presence. -/
structure ExperimentPlanPayload where
  task_config : List (String × FieldVal) := []
  preprocessing : List (String × FieldVal) := []
  experiments : List (List (String × FieldVal)) := []
deriving DecidableEq, Repr

/-- Response shape of POST /extract-intent/ (mlBuilderService.ts,
IntentExtractionResponse). -/
structure IntentExtractionResponse where
  success : Bool
  intent : Option Intent := none
  model_id : Option Int := none
  validation : Option ValidationInfo := none
  experiment_plan : Option ExperimentPlanPayload := none
  dataset_info : Option DatasetInfo := none
  raw_prompt : String := ""
  error : Option String := none
deriving DecidableEq, Repr

/-- Response shape of POST /train/ (mlBuilderService.ts, TrainingResponse). -/
structure TrainingResponse where
  success : Bool := true
  training_run_id : Int := 0
  model_id : Int := 0
  total_experiments : Int := 0
  best_experiment_id : String := ""
  best_score : ℚ := 0
  results : Option (List ExperimentResult) := none
  error : Option String := none
deriving DecidableEq, Repr

/-- Request body of POST /train/ as built by handleStartTraining.
A `none` dataset_id stands for the NaN a failed parseInt would produce. -/
structure TrainingRequest where
  intent : Intent
  model_id : Option Int := none
  dataset_id : Option Int := none
  project_id : Int := 1
  model_name : String := ""
deriving DecidableEq, Repr

/-- A dataset record as listed by the project service (only the fields the
builder uses). -/
structure Dataset where
  id : Int
  name : String := ""
deriving DecidableEq, Repr

/-- A persisted model record as returned by GET /models/id/ (only the fields
loadModel uses). -/
structure MLModel where
  id : Int
  intent : Option Intent := none
  dataset : Option Int := none
deriving DecidableEq, Repr

/-- Which of the two dataset-source modes the UI is in. -/
inductive SelectionMode where
  | upload
  | select
deriving DecidableEq, Repr

/-- The useState fields of the PromptBuilder component; a File value is
represented by its file name. -/
structure BuilderState where
  prompt : String := ""
  loading : Bool := false
  trainingLoading : Bool := false
  error : String := ""
  file : Option String := none
  selectionMode : SelectionMode := .upload
  datasets : List Dataset := []
  selectedDatasetId : String := ""
  intentResult : Option IntentExtractionResponse := none
  trainingResult : Option TrainingResponse := none
deriving DecidableEq, Repr

/-- Network calls the builder can issue, recorded as a trace. -/
inductive NetCall where
  | uploadDataset (name description : String) (project : Int)
  | getDatasets (project : Option Int)
  | extractIntent (prompt : String) (dataset_id : Int)
  | startTraining (req : TrainingRequest)
  | getModel (id : Int)
deriving DecidableEq, Repr

/-- Whether a recorded call is a call to the intent extractor. -/
def NetCall.isExtract : NetCall → Bool
  | .extractIntent _ _ => true
  | _ => false

/-- JavaScript string disjunction a or-else b: b when a is the empty string
(falsy), a otherwise. -/
def jsOr (a b : String) : String :=
  if a = "" then b else a

/-- JavaScript disjunction over a possibly absent string: absent and empty
are both falsy. -/
def jsOrOpt (a : Option String) (b : String) : String :=
  match a with
  | some s => jsOr s b
  | none => b

/-- JavaScript String.prototype.trim: strips leading and trailing
whitespace characters. -/
def jsTrim (s : String) : String :=
  String.mk (((s.toList.dropWhile Char.isWhitespace).reverse.dropWhile
    Char.isWhitespace).reverse)

/-- JavaScript parseInt on a string: skips leading whitespace, reads an
optional sign and then leading decimal digits; none models the NaN returned
when no digit is found. -/
def jsParseInt (s : String) : Option Int :=
  let cs := s.toList.dropWhile Char.isWhitespace
  let signed : Int × List Char :=
    match cs with
    | '-' :: r => (-1, r)
    | '+' :: r => (1, r)
    | r => (1, r)
  let ds := signed.2.takeWhile Char.isDigit
  if ds.isEmpty then none
  else some (signed.1 * Int.ofNat (ds.foldl (fun a c => a * 10 + (c.toNat - '0'.toNat)) 0))

/-- First dot-separated segment of a file name, the JavaScript
used as the uploaded dataset name (split at dots, first segment). -/
def fileStem (fileName : String) : String :=
  (fileName.splitOn ".").headD ""

/-- Outcomes of the asynchronous calls handleSubmit can make, passed in as
an explicit environment. -/
structure SubmitEnv where
  uploadResult : Except String Dataset := .error ""
  refreshResult : Except String (List Dataset) := .ok []
  extractResult : Except String IntentExtractionResponse := .error ""
deriving Repr

/-- Distinguishes the early validation returns of handleSubmit from runs that
entered the dataset-resolution try block. -/
inductive SubmitOutcome where
  | inputError (msg : String)
  | proceeded
deriving DecidableEq, Repr

/-- The guard chain at the top of handleSubmit: project context, trimmed
prompt, and the mode-specific completeness checks, each returning its error
message before any state change or network call. The first guard is the JS
falsy test on projectId, which fires both on an absent and on a zero id. -/
def submitGuardError (projectId : Option Int) (s : BuilderState) : Option String :=
  if projectId = none ∨ projectId = some 0 then
    some "Project context missing. Please refresh the page."
  else if jsTrim s.prompt = "" then some "Please enter a prompt"
  else if s.selectionMode = .upload ∧ s.file = none then some "Please upload a dataset file"
  else if s.selectionMode = .select ∧ s.selectedDatasetId = "" then some "Please select a dataset"
  else none

/-- Effect of the catch plus finally blocks of handleSubmit on the state reached
inside the try: the displayed error is the thrown message with the generic
fallback for an empty one, and both loading flags end false. -/
def catchSubmit (s : BuilderState) (msg : String) : BuilderState :=
  { s with error := jsOr msg "An error occurred. Please try again.",
           loading := false, trainingLoading := false }

/-- Step 1 of the try block of handleSubmit: dataset resolution. In upload mode
it uploads the file and refreshes the dataset list (either await can
throw); otherwise a non-empty selected id is parsed. Returns either the
caught final state or the continuing state, the resolved id (none for null
or NaN), and the calls made so far. -/
def resolveDatasetStep (projectId : Int) (env : SubmitEnv) (s s1 : BuilderState) :
    Except (BuilderState × List NetCall) (BuilderState × Option Int × List NetCall) :=
  if s.selectionMode = .upload ∧ s.file.isSome then
    let call := NetCall.uploadDataset (fileStem (s.file.getD ""))
      "Uploaded via Model Builder" projectId
    match env.uploadResult with
    | .error m => .error (catchSubmit s1 m, [call])
    | .ok uploadedDataset =>
      match env.refreshResult with
      | .error m => .error (catchSubmit s1 m, [call, .getDatasets (some projectId)])
      | .ok results =>
        .ok ({ s1 with datasets := results }, some uploadedDataset.id,
          [call, .getDatasets (some projectId)])
  else if s.selectedDatasetId ≠ "" then
    .ok (s1, jsParseInt s.selectedDatasetId, [])
  else
    .ok (s1, none, [])

/-- State changes at the top of the handleSubmit try block: loading set,
error and both previous results cleared. -/
def submitInit (s : BuilderState) : BuilderState :=
  { s with loading := true, error := "",
           intentResult := none, trainingResult := none }

/-- Body of handleSubmit once the guards have passed: clear the error and
previous results, resolve the dataset id, reject a falsy id, call the
extractor, reject a success=false response, and store a successful one. -/
def submitBody (projectId : Int) (env : SubmitEnv) (s : BuilderState) :
    BuilderState × List NetCall :=
  match resolveDatasetStep projectId env s (submitInit s) with
  | .error r => r
  | .ok (s2, finalDatasetId, calls) =>
    match finalDatasetId with
    | none => (catchSubmit s2 "Failed to resolve dataset ID", calls)
    | some did =>
      if did = 0 then (catchSubmit s2 "Failed to resolve dataset ID", calls)
      else
        let calls := calls ++ [.extractIntent s.prompt did]
        match env.extractResult with
        | .error m => (catchSubmit s2 m, calls)
        | .ok result =>
          if !result.success then
            (catchSubmit s2 (jsOrOpt result.error "Failed to extract intent"), calls)
          else
            ({ s2 with intentResult := some result,
                       loading := false, trainingLoading := false }, calls)

/-- PromptBuilder.tsx handleSubmit: the guard chain, then the
resolve-extract body. Returns the new state, the network calls made, and
whether the run was an early validation return. -/
def handleSubmit (projectId : Option Int) (env : SubmitEnv) (s : BuilderState) :
    BuilderState × List NetCall × SubmitOutcome :=
  match submitGuardError projectId s with
  | some e => ({ s with error := e }, [], .inputError e)
  | none =>
    let r := submitBody (projectId.getD 0) env s
    (r.1, r.2, .proceeded)

/-- PromptBuilder.tsx handleReset (the Build Another Model action): clears
prompt, file, intent result, training result and error; the dataset
selection states are not touched. -/
def handleReset (s : BuilderState) : BuilderState :=
  { s with prompt := "", file := none, intentResult := none,
           trainingResult := none, error := "" }

/-- Dataset-id resolution in handleStartTraining: the parsed explicit
selection when in select mode with a non-empty selection, else a truthy
extraction-provided dataset_info.dataset_id, else the default 1. -/
def resolveTrainingDatasetId (mode : SelectionMode) (sel : String)
    (infoId : Option Int) : Option Int :=
  if mode = .select ∧ sel ≠ "" then jsParseInt sel
  else
    match infoId with
    | some d => if d = 0 then some 1 else some d
    | none => some 1

/-- The dataset_info.dataset_id reachable from an extraction response via
the optional-chaining read in handleStartTraining. -/
def datasetInfoId (ir : IntentExtractionResponse) : Option Int :=
  ir.dataset_info.bind (fun info => info.dataset_id)

/-- PromptBuilder.tsx handleStartTraining. Guard: a missing intent only
sets the error. Otherwise it resolves the dataset id, builds the training
request (nowStr stands for the formatted current date in the model name;
the JS projectId or-else 1 maps 0 and absence to 1), and either stores the
result or surfaces the thrown message via catch, finally clearing the
training flag. -/
def handleStartTraining (projectId : Option Int) (nowStr : String)
    (env : Except String TrainingResponse) (s : BuilderState) :
    BuilderState × Option TrainingRequest × List NetCall :=
  match s.intentResult with
  | none => ({ s with error := "No intent available" }, none, [])
  | some ir =>
    match ir.intent with
    | none => ({ s with error := "No intent available" }, none, [])
    | some it =>
      let s1 := { s with trainingLoading := true, error := "" }
      let finalDatasetId :=
        resolveTrainingDatasetId s.selectionMode s.selectedDatasetId (datasetInfoId ir)
      let req : TrainingRequest :=
        { intent := it,
          model_id := ir.model_id,
          dataset_id := finalDatasetId,
          project_id := match projectId with
            | some p => if p = 0 then 1 else p
            | none => 1,
          model_name := "Model - " ++ nowStr }
      match env with
      | .error m =>
        ({ s1 with error := jsOr m "Failed to start training. Please try again.",
                   trainingLoading := false }, some req, [.startTraining req])
      | .ok result =>
        ({ s1 with trainingResult := some result, trainingLoading := false },
          some req, [.startTraining req])

/-- The synthetic extraction response loadModel builds around a persisted
intent when resuming a draft: success, is_valid true, empty dataset_info,
empty raw prompt, and the model record id as model_id. -/
def resumedResponse (modelId : Int) (it : Intent) : IntentExtractionResponse :=
  { success := true, intent := some it, model_id := some modelId,
    validation := some { is_valid := true }, dataset_info := some {},
    raw_prompt := "" }

/-- PromptBuilder.tsx loadModel (draft-model resume): fetches the model
record; when an intent is present it is wrapped into a synthetic
extraction response with is_valid true, empty dataset_info and empty raw
prompt; a truthy dataset id switches the UI to select mode with that id as
the selection; failures only surface a fixed message. -/
def loadModel (id : Int) (env : Except String (Option MLModel)) (s : BuilderState) :
    BuilderState × List NetCall :=
  match env with
  | .error _ =>
    ({ s with error := "Failed to load model details.", loading := false },
      [.getModel id])
  | .ok mo =>
    match mo with
    | none => ({ s with loading := false }, [.getModel id])
    | some model =>
      let s1 :=
        match model.intent with
        | some it => { s with intentResult := some (resumedResponse model.id it) }
        | none => s
      let s2 :=
        match model.dataset with
        | some d =>
          if d = 0 then s1
          else { s1 with selectionMode := .select, selectedDatasetId := toString d }
        | none => s1
      ({ s2 with loading := false }, [.getModel id])

/-! Concrete fixtures used by the examples, witnesses and counterexamples
below. -/

/-- An intent whose search space holds the single model xgboost. -/
def intentXgb : Intent :=
  { search_space := some { models := some [{ name := "xgboost", params := [] }] } }

/-- The example result sequence of the ranking claim: a completed at 0.8,
b failed at 0.95, c completed at 0.9. -/
def exampleResults : List ExperimentResult :=
  [{ exp_id := "a", status := "completed", test_score := some 0.8 },
   { exp_id := "b", status := "failed", test_score := some 0.95 },
   { exp_id := "c", status := "completed", test_score := some 0.9 }]

/-- A mid-session state: select mode with dataset 5 chosen, a prompt typed,
an extracted intent and a finished training run. -/
def sessionAfterTraining : BuilderState :=
  { prompt := "predict churn", selectionMode := .select, selectedDatasetId := "5",
    intentResult := some { success := true, intent := some {} },
    trainingResult := some {} }

/-- A state whose prompt is whitespace only (used against the submit guard). -/
def blankPromptState : BuilderState :=
  { prompt := "   ", selectionMode := .select, selectedDatasetId := "3" }

/-- An extraction response carrying an intent and dataset_info.dataset_id 3. -/
def extractionWithInfo3 : IntentExtractionResponse :=
  { success := true, intent := some {}, dataset_info := some { dataset_id := some 3 } }

/-- A reviewing-intent state: select mode with dataset 7 chosen and the
extraction above stored. -/
def reviewingState7 : BuilderState :=
  { selectionMode := .select, selectedDatasetId := "7",
    intentResult := some extractionWithInfo3 }

/-- A persisted draft model record carrying an intent and dataset 12. -/
def draftModel12 : MLModel :=
  { id := 42, intent := some intentXgb, dataset := some 12 }

/-- An extraction response that failed with a server-supplied message. -/
def failedExtraction : IntentExtractionResponse :=
  { success := false, error := some "target column not found" }

/-- A submit environment whose extraction call returns the failed response
above (upload and refresh succeed trivially). -/
def envFailedExtraction : SubmitEnv :=
  { uploadResult := .ok { id := 9 }, refreshResult := .ok [],
    extractResult := .ok failedExtraction }

/-! Helper lemmas about the findIndex-splice combination used by
toggleModel. -/

theorem eraseP_middle {α : Type} (p : α → Bool) (e : α) (he : p e = true) :
    ∀ (A B : List α), (∀ a ∈ A, p a = false) →
      List.eraseP p (A ++ e :: B) = A ++ B := by
  intro A
  induction A with
  | nil =>
    intro B _
    simp [List.eraseP_cons, he]
  | cons a A ih =>
    intro B hA
    have ha : p a = false := hA a (by simp)
    simp only [List.cons_append, List.eraseP_cons, ha, cond_false]
    rw [ih B (fun x hx => hA x (by simp [hx]))]

theorem toggleEntries_eq_eraseP (n : String) (models : List ModelEntry) :
    toggleEntries models n =
      if models.any (fun m => m.name == n)
      then models.eraseP (fun m => m.name == n)
      else models ++ [{ name := n, params := [] }] := by
  induction models with
  | nil => simp [toggleEntries]
  | cons a l ih =>
    by_cases hp : (a.name == n) = true
    · simp [toggleEntries, List.findIdx?_cons, hp, List.eraseP_cons]
    · rw [Bool.not_eq_true] at hp
      cases hl : l.findIdx? (fun m => m.name == n) with
      | some j =>
        have hcons : (a :: l).findIdx? (fun m => m.name == n) = some (j + 1) := by
          rw [List.findIdx?_cons, if_neg (by simp [hp]), List.findIdx?_succ, hl]
          rfl
        have hany : l.any (fun m => m.name == n) = true := by
          have := @List.findIdx?_isSome _ l (fun m => m.name == n)
          rw [hl] at this
          exact this.symm
        have hih : l.eraseIdx j = l.eraseP (fun m => m.name == n) := by
          have := ih
          rw [toggleEntries, hl, if_pos hany] at this
          exact this
        rw [toggleEntries, hcons]
        dsimp only
        rw [List.eraseIdx_cons_succ, hih]
        have hanyc : (a :: l).any (fun m => m.name == n) = true := by
          simp [List.any_cons, hany]
        rw [if_pos hanyc, List.eraseP_cons, hp, cond_false]
      | none =>
        have hcons : (a :: l).findIdx? (fun m => m.name == n) = none := by
          rw [List.findIdx?_cons, if_neg (by simp [hp]), List.findIdx?_succ, hl]
          rfl
        have hany : l.any (fun m => m.name == n) = false := by
          have := @List.findIdx?_isSome _ l (fun m => m.name == n)
          rw [hl] at this
          exact this.symm
        have hanyc : (a :: l).any (fun m => m.name == n) = false := by
          simp [List.any_cons, hany, hp]
        rw [toggleEntries, hcons, if_neg (by simp [hanyc])]

theorem toggleEntries_of_not_mem (n : String) (models : List ModelEntry)
    (h : ∀ m ∈ models, m.name ≠ n) :
    toggleEntries models n = models ++ [{ name := n, params := [] }] := by
  rw [toggleEntries_eq_eraseP]
  have hany : models.any (fun m => m.name == n) = false := by
    rw [List.any_eq_false]
    intro m hm
    simp [h m hm]
  rw [if_neg (by simp [hany])]

theorem toggleEntries_of_mem (n : String) (A B : List ModelEntry) (e : ModelEntry)
    (hA : ∀ a ∈ A, a.name ≠ n) (he : e.name = n) :
    toggleEntries (A ++ e :: B) n = A ++ B := by
  rw [toggleEntries_eq_eraseP]
  have hany : (A ++ e :: B).any (fun m => m.name == n) = true := by
    rw [List.any_eq_true]
    exact ⟨e, by simp, by simp [he]⟩
  rw [if_pos hany]
  exact eraseP_middle _ e (by simp [he]) A B (fun a ha => by simp [hA a ha])

theorem modelsOf_toggleModel (i : Intent) (n : String) :
    modelsOf (toggleModel i n) = toggleEntries (modelsOf i) n := rfl

/-- C5: updateTask and updatePreprocessing replace exactly the named nested
field: the other top-level intent fields and every sibling field keep
their prior value, and the named field holds the new value; the update
is a pure function of the old intent, never a mutation of it. -/
theorem setField_frame :
    (∀ (i : Intent) (k : TaskKey) (v : FieldVal),
      (updateTask i k v).preprocessing = i.preprocessing ∧
      (updateTask i k v).search_space = i.search_space ∧
      ((updateTask i k v).task.getD {}).get k = some v ∧
      ∀ k2, k2 ≠ k →
        ((updateTask i k v).task.getD {}).get k2 = (i.task.getD {}).get k2) ∧
    (∀ (i : Intent) (k : PreprocKey) (v : FieldVal),
      (updatePreprocessing i k v).task = i.task ∧
      (updatePreprocessing i k v).search_space = i.search_space ∧
      ((updatePreprocessing i k v).preprocessing.getD {}).get k = some v ∧
      ∀ k2, k2 ≠ k →
        ((updatePreprocessing i k v).preprocessing.getD {}).get k2 =
          (i.preprocessing.getD {}).get k2) := by
  constructor
  · intro i k v
    refine ⟨rfl, rfl, ?_, ?_⟩
    · cases k <;> rfl
    · intro k2 hk
      cases k <;> cases k2 <;> first | exact absurd rfl hk | rfl
  · intro i k v
    refine ⟨rfl, rfl, ?_, ?_⟩
    · cases k <;> rfl
    · intro k2 hk
      cases k <;> cases k2 <;> first | exact absurd rfl hk | rfl

/-- Witness for C5: updating the metric of the empty intent leaves the
type field untouched. -/
theorem setField_frame_witness :
    TaskKey.type ≠ TaskKey.metric ∧
    ((updateTask {} .metric (.str "rmse")).task.getD {}).get .type =
      ((({} : Intent).task.getD {})).get .type :=
  ⟨by decide, (setField_frame.1 {} .metric (.str "rmse")).2.2.2 .type (by decide)⟩

/-- C6: toggleModel appends a fresh entry with empty params when no entry
carries the name, removes exactly the named entry otherwise (remaining
entries keep their order and contents), and under the models-unique-by-name
invariant a double toggle restores the original name set (order-independent,
comparing entries by name). -/
theorem toggleModel_spec (i : Intent) (n : String) :
    ((∀ m ∈ modelsOf i, m.name ≠ n) →
      modelsOf (toggleModel i n) = modelsOf i ++ [{ name := n, params := [] }]) ∧
    (∀ (A B : List ModelEntry) (e : ModelEntry),
      modelsOf i = A ++ e :: B → (∀ a ∈ A, a.name ≠ n) → e.name = n →
      modelsOf (toggleModel i n) = A ++ B) ∧
    (((modelsOf i).map ModelEntry.name).Nodup →
      ((modelsOf (toggleModel (toggleModel i n) n)).map ModelEntry.name).Perm
        ((modelsOf i).map ModelEntry.name)) := by
  refine ⟨?_, ?_, ?_⟩
  · intro h
    rw [modelsOf_toggleModel, toggleEntries_of_not_mem n _ h]
  · intro A B e hdec hA he
    rw [modelsOf_toggleModel, hdec, toggleEntries_of_mem n A B e hA he]
  · intro hnd
    by_cases hmem : ∃ e ∈ modelsOf i, e.name = n
    · obtain ⟨e, hel, hen⟩ := hmem
      obtain ⟨A, B, hAB⟩ := List.append_of_mem hel
      have hnames : ((modelsOf i).map ModelEntry.name) =
          A.map ModelEntry.name ++ e.name :: B.map ModelEntry.name := by
        rw [hAB]; simp
      have hnotin : e.name ∉ A.map ModelEntry.name ++ B.map ModelEntry.name := by
        have hmid := hnd
        rw [hnames, List.nodup_middle] at hmid
        exact (List.nodup_cons.mp hmid).1
      have hAn : ∀ a ∈ A, a.name ≠ n := by
        intro a ha hcontra
        apply hnotin
        rw [List.mem_append]
        refine Or.inl ?_
        have hmap : a.name ∈ A.map ModelEntry.name :=
          List.mem_map_of_mem ModelEntry.name ha
        rw [hcontra, ← hen] at hmap
        exact hmap
      have hBn : ∀ b ∈ B, b.name ≠ n := by
        intro b hb hcontra
        apply hnotin
        rw [List.mem_append]
        refine Or.inr ?_
        have hmap : b.name ∈ B.map ModelEntry.name :=
          List.mem_map_of_mem ModelEntry.name hb
        rw [hcontra, ← hen] at hmap
        exact hmap
      have h1 : modelsOf (toggleModel i n) = A ++ B := by
        rw [modelsOf_toggleModel, hAB, toggleEntries_of_mem n A B e hAn hen]
      have hABn : ∀ m ∈ A ++ B, m.name ≠ n := by
        intro m hm
        rcases List.mem_append.mp hm with h | h
        · exact hAn m h
        · exact hBn m h
      have h2 : modelsOf (toggleModel (toggleModel i n) n) =
          (A ++ B) ++ [{ name := n, params := [] }] := by
        rw [modelsOf_toggleModel, h1, toggleEntries_of_not_mem n _ hABn]
      rw [h2, hnames, hen]
      have e1 : ((A ++ B) ++ [({ name := n, params := [] } : ModelEntry)]).map ModelEntry.name
          = (A.map ModelEntry.name ++ B.map ModelEntry.name) ++ [n] := by simp
      rw [e1]
      exact (List.perm_append_singleton _ _).trans List.perm_middle.symm
    · push_neg at hmem
      have h1 : modelsOf (toggleModel i n) =
          modelsOf i ++ [{ name := n, params := [] }] := by
        rw [modelsOf_toggleModel, toggleEntries_of_not_mem n _ hmem]
      have h2 : modelsOf (toggleModel (toggleModel i n) n) = modelsOf i := by
        rw [modelsOf_toggleModel, h1,
          toggleEntries_of_mem n (modelsOf i) [] _ hmem rfl]
        simp
      rw [h2]

/-- Witness for C6: a double toggle of xgboost on an intent holding the
single model xgboost restores the original name set. -/
theorem toggleModel_spec_witness :
    ((modelsOf intentXgb).map ModelEntry.name).Nodup ∧
    ((modelsOf (toggleModel (toggleModel intentXgb "xgboost") "xgboost")).map
        ModelEntry.name).Perm ((modelsOf intentXgb).map ModelEntry.name) :=
  ⟨by decide, (toggleModel_spec intentXgb "xgboost").2.2 (by decide)⟩

/-- C2: the ranking shown to the user keeps exactly the completed entries
(it is a permutation of the status filter), orders them by descending
test score with a missing score ranked as zero, and on the example inputs
a 0.8 completed, b 0.95 failed, c 0.9 completed yields the ids c then a. -/
theorem ranking_spec :
    (∀ results : List ExperimentResult,
      (rankResults results).Perm
        (results.filter (fun r => r.status == "completed"))) ∧
    (∀ results : List ExperimentResult,
      (rankResults results).Sorted (fun a b => scoreKey b ≤ scoreKey a)) ∧
    (rankResults exampleResults).map (fun r => r.exp_id) = ["c", "a"] := by
  refine ⟨?_, ?_, ?_⟩
  · intro results
    exact List.perm_insertionSort _ _
  · intro results
    haveI : IsTotal ExperimentResult (fun a b => scoreKey b ≤ scoreKey a) :=
      ⟨fun a b => le_total (scoreKey b) (scoreKey a)⟩
    haveI : IsTrans ExperimentResult (fun a b => scoreKey b ≤ scoreKey a) :=
      ⟨fun a b c hab hbc => le_trans hbc hab⟩
    exact List.sorted_insertionSort _ _
  · norm_num [rankResults, exampleResults, scoreKey, List.insertionSort,
      List.orderedInsert, List.filter]

/-- Counterexample to C4 as stated: after a completed session in select mode
with dataset 5 chosen, reset leaves the selected dataset id at 5 instead of
returning it to the fresh-session empty selection. -/
theorem reset_keeps_selection_cex :
    (handleReset sessionAfterTraining).selectedDatasetId = "5" ∧
    ¬ (handleReset sessionAfterTraining).selectedDatasetId = "" := by
  exact ⟨rfl, by decide⟩

/-- C4 amended: reset clears the prompt, the attached file, the intent
result, the training outcome and the error, but leaves the selection mode,
the selected dataset id and the dataset list unchanged. -/
theorem reset_clears_fields (s : BuilderState) :
    (handleReset s).prompt = "" ∧ (handleReset s).file = none ∧
    (handleReset s).intentResult = none ∧ (handleReset s).trainingResult = none ∧
    (handleReset s).error = "" ∧
    (handleReset s).selectedDatasetId = s.selectedDatasetId ∧
    (handleReset s).selectionMode = s.selectionMode ∧
    (handleReset s).datasets = s.datasets :=
  ⟨rfl, rfl, rfl, rfl, rfl, rfl, rfl, rfl⟩

theorem submitGuardError_eq_none_iff (projectId : Option Int) (s : BuilderState) :
    submitGuardError projectId s = none ↔
      ¬(projectId = none ∨ projectId = some 0) ∧ jsTrim s.prompt ≠ "" ∧
      ¬(s.selectionMode = .upload ∧ s.file = none) ∧
      ¬(s.selectionMode = .select ∧ s.selectedDatasetId = "") := by
  unfold submitGuardError
  split_ifs with h1 h2 h3 h4 <;> simp_all

/-- C1: handleSubmit reaches dataset resolution only when the trimmed
prompt is non-blank and the dataset selection is complete; on a blank
prompt or an incomplete selection it only sets an input error message,
changes nothing else, and makes no network call; and with a truthy project
context (present and non-zero, the JS falsy test), a non-blank prompt and
a complete selection it does proceed. -/
theorem submit_input_guard (projectId : Option Int) (env : SubmitEnv)
    (s : BuilderState) :
    (jsTrim s.prompt = "" ∨ (s.selectionMode = .upload ∧ s.file = none) ∨
        (s.selectionMode = .select ∧ s.selectedDatasetId = "") →
      ∃ e, e ≠ "" ∧
        handleSubmit projectId env s = ({ s with error := e }, [], .inputError e)) ∧
    ((handleSubmit projectId env s).2.2 = .proceeded →
      jsTrim s.prompt ≠ "" ∧ (s.selectionMode = .upload → s.file ≠ none) ∧
      (s.selectionMode = .select → s.selectedDatasetId ≠ "")) ∧
    (projectId ≠ none → projectId ≠ some 0 →
      jsTrim s.prompt ≠ "" ∧ (s.selectionMode = .upload → s.file ≠ none) ∧
      (s.selectionMode = .select → s.selectedDatasetId ≠ "") →
      (handleSubmit projectId env s).2.2 = .proceeded) := by
  refine ⟨?_, ?_, ?_⟩
  · intro h
    unfold handleSubmit submitGuardError
    by_cases h1 : projectId = none ∨ projectId = some 0
    · rw [if_pos h1]
      exact ⟨_, by decide, rfl⟩
    · rw [if_neg h1]
      by_cases h2 : jsTrim s.prompt = ""
      · rw [if_pos h2]
        exact ⟨_, by decide, rfl⟩
      · rw [if_neg h2]
        by_cases h3 : s.selectionMode = .upload ∧ s.file = none
        · rw [if_pos h3]
          exact ⟨_, by decide, rfl⟩
        · rw [if_neg h3]
          by_cases h4 : s.selectionMode = .select ∧ s.selectedDatasetId = ""
          · rw [if_pos h4]
            exact ⟨_, by decide, rfl⟩
          · exact absurd h (by tauto)
  · intro hp
    unfold handleSubmit at hp
    cases hg : submitGuardError projectId s with
    | some e =>
      rw [hg] at hp
      simp at hp
    | none =>
      have hc := (submitGuardError_eq_none_iff projectId s).mp hg
      exact ⟨hc.2.1, fun hm => by tauto, fun hm => by tauto⟩
  · intro hpid hpid0 hcond
    have hg : submitGuardError projectId s = none := by
      rw [submitGuardError_eq_none_iff]
      refine ⟨fun hc => hc.elim hpid hpid0, hcond.1, ?_, ?_⟩
      · intro hc
        exact hcond.2.1 hc.1 hc.2
      · intro hc
        exact hcond.2.2 hc.1 hc.2
    unfold handleSubmit
    rw [hg]

/-- Witness for C1: a whitespace-only prompt makes submit return an input
error without touching the rest of the state or the network. -/
theorem submit_input_guard_witness :
    jsTrim blankPromptState.prompt = "" ∧
    ∃ e, e ≠ "" ∧
      handleSubmit (some 1) envFailedExtraction blankPromptState =
        ({ blankPromptState with error := e }, [], .inputError e) :=
  ⟨by decide,
    (submit_input_guard (some 1) envFailedExtraction blankPromptState).1
      (Or.inl (by decide))⟩

theorem resolveDatasetStep_error_spec (pid : Int) (env : SubmitEnv)
    (s s1 st : BuilderState) (calls : List NetCall)
    (h : resolveDatasetStep pid env s s1 = .error (st, calls)) :
    ∀ c ∈ calls, c.isExtract = false := by
  unfold resolveDatasetStep at h
  split_ifs at h with h1 h2
  · cases hu : env.uploadResult with
    | error m =>
      rw [hu] at h
      simp only [Except.error.injEq, Prod.mk.injEq] at h
      intro c hc
      rw [← h.2] at hc
      rw [List.mem_singleton.mp hc]
      rfl
    | ok ds =>
      rw [hu] at h
      cases hr : env.refreshResult with
      | error m =>
        rw [hr] at h
        simp only [Except.error.injEq, Prod.mk.injEq] at h
        intro c hc
        rw [← h.2] at hc
        rcases List.mem_cons.mp hc with rfl | hc2
        · rfl
        · rw [List.mem_singleton.mp hc2]
          rfl
      | ok results =>
        rw [hr] at h
        cases h

theorem resolveDatasetStep_ok_spec (pid : Int) (env : SubmitEnv)
    (s s1 s2 : BuilderState) (fid : Option Int) (calls : List NetCall)
    (h : resolveDatasetStep pid env s s1 = .ok (s2, fid, calls)) :
    (∀ c ∈ calls, c.isExtract = false) ∧ s2.intentResult = s1.intentResult := by
  unfold resolveDatasetStep at h
  split_ifs at h with h1 h2
  · cases hu : env.uploadResult with
    | error m =>
      rw [hu] at h
      cases h
    | ok ds =>
      rw [hu] at h
      cases hr : env.refreshResult with
      | error m =>
        rw [hr] at h
        cases h
      | ok results =>
        rw [hr] at h
        simp only [Except.ok.injEq, Prod.mk.injEq] at h
        refine ⟨?_, ?_⟩
        · intro c hc
          rw [← h.2.2] at hc
          rcases List.mem_cons.mp hc with rfl | hc2
          · rfl
          · rw [List.mem_singleton.mp hc2]
            rfl
        · rw [← h.1]
  · simp only [Except.ok.injEq, Prod.mk.injEq] at h
    refine ⟨?_, ?_⟩
    · intro c hc
      rw [← h.2.2] at hc
      cases hc
    · rw [← h.1]
  · simp only [Except.ok.injEq, Prod.mk.injEq] at h
    refine ⟨?_, ?_⟩
    · intro c hc
      rw [← h.2.2] at hc
      cases hc
    · rw [← h.1]

theorem jsOrOpt_ne_empty (a : Option String) (b : String) (hb : b ≠ "") :
    jsOrOpt a b ≠ "" := by
  cases a with
  | none => exact hb
  | some v =>
    show jsOr v b ≠ ""
    unfold jsOr
    by_cases hv : v = ""
    · rw [if_pos hv]; exact hb
    · rw [if_neg hv]; exact hv

theorem submitBody_extract_failure (pid : Int) (env : SubmitEnv)
    (s : BuilderState) (r : IntentExtractionResponse)
    (hr : env.extractResult = .ok r) (hs : r.success = false)
    (hreach : ∃ c ∈ (submitBody pid env s).2, c.isExtract = true) :
    (submitBody pid env s).1.intentResult = none ∧
    (submitBody pid env s).1.error = jsOrOpt r.error "Failed to extract intent" := by
  unfold submitBody at *
  cases hq : resolveDatasetStep pid env s (submitInit s) with
  | error p =>
    rw [hq] at hreach
    dsimp only at hreach
    obtain ⟨c, hc, hext⟩ := hreach
    have hno := resolveDatasetStep_error_spec pid env s (submitInit s) p.1 p.2
      (by rw [hq]) c hc
    rw [hext] at hno
    cases hno
  | ok q =>
    obtain ⟨s2, fid, calls⟩ := q
    have hok := resolveDatasetStep_ok_spec pid env s (submitInit s) s2 fid calls hq
    rw [hq] at hreach
    dsimp only at hreach ⊢
    cases fid with
    | none =>
      dsimp only at hreach
      obtain ⟨c, hc, hext⟩ := hreach
      have hno := hok.1 c hc
      rw [hext] at hno
      cases hno
    | some did =>
      dsimp only at hreach ⊢
      by_cases hdid : did = 0
      · rw [if_pos hdid] at hreach
        obtain ⟨c, hc, hext⟩ := hreach
        have hno := hok.1 c hc
        rw [hext] at hno
        cases hno
      · rw [if_neg hdid, hr]
        dsimp only
        rw [hs]
        rw [if_pos (show (!false) = true from rfl)]
        constructor
        · show (catchSubmit s2 _).intentResult = none
          unfold catchSubmit
          show s2.intentResult = none
          rw [hok.2]
          rfl
        · show (catchSubmit s2 _).error = _
          unfold catchSubmit jsOr
          rw [if_neg (jsOrOpt_ne_empty r.error "Failed to extract intent" (by decide))]

/-- C8: an extraction response with success false is treated as a failure
even on a 2xx transport: the response is not stored as the session intent,
and the surfaced error is the server-supplied message when one is present
and the generic fallback otherwise. -/
theorem extract_failure_not_stored (projectId : Option Int) (env : SubmitEnv)
    (s : BuilderState) (r : IntentExtractionResponse)
    (hr : env.extractResult = .ok r) (hs : r.success = false)
    (hreach : ∃ c ∈ (handleSubmit projectId env s).2.1, c.isExtract = true) :
    (handleSubmit projectId env s).1.intentResult = none ∧
    (∀ e, r.error = some e → e ≠ "" → (handleSubmit projectId env s).1.error = e) ∧
    ((r.error = none ∨ r.error = some "") →
      (handleSubmit projectId env s).1.error = "Failed to extract intent") := by
  unfold handleSubmit at *
  cases hg : submitGuardError projectId s with
  | some e =>
    rw [hg] at hreach
    simp at hreach
  | none =>
    rw [hg] at hreach
    dsimp only at hreach ⊢
    have hb := submitBody_extract_failure (projectId.getD 0) env s r hr hs hreach
    refine ⟨hb.1, ?_, ?_⟩
    · intro e he hne
      rw [hb.2, he]
      show jsOr e "Failed to extract intent" = e
      unfold jsOr
      rw [if_neg hne]
    · intro he
      rw [hb.2]
      rcases he with he | he <;> rw [he] <;> rfl

/-- Witness for C8: on a concrete select-mode session the failed extraction
is not stored and its server message is surfaced. -/
theorem extract_failure_not_stored_witness :
    envFailedExtraction.extractResult = .ok failedExtraction ∧
    failedExtraction.success = false ∧
    (handleSubmit (some 1) envFailedExtraction
        { prompt := "predict churn", selectionMode := .select,
          selectedDatasetId := "3" }).1.intentResult = none := by
  refine ⟨rfl, rfl, ?_⟩
  exact (extract_failure_not_stored (some 1) envFailedExtraction
    { prompt := "predict churn", selectionMode := .select, selectedDatasetId := "3" }
    failedExtraction rfl rfl
    ⟨.extractIntent "predict churn" 3, by decide, rfl⟩).1

theorem handleStartTraining_request (projectId : Option Int) (nowStr : String)
    (env : Except String TrainingResponse) (s : BuilderState)
    (ir : IntentExtractionResponse) (it : Intent)
    (hs : s.intentResult = some ir) (hi : ir.intent = some it) :
    ∃ req, (handleStartTraining projectId nowStr env s).2.1 = some req ∧
      req.intent = it ∧
      req.dataset_id = resolveTrainingDatasetId s.selectionMode
        s.selectedDatasetId (datasetInfoId ir) ∧
      (handleStartTraining projectId nowStr env s).2.2 = [.startTraining req] := by
  unfold handleStartTraining
  rw [hs]
  dsimp only
  rw [hi]
  dsimp only
  cases env with
  | error m => exact ⟨_, rfl, rfl, rfl, rfl⟩
  | ok result => exact ⟨_, rfl, rfl, rfl, rfl⟩

theorem handleStartTraining_failure_state (projectId : Option Int)
    (nowStr m : String) (s : BuilderState)
    (ir : IntentExtractionResponse) (it : Intent)
    (hs : s.intentResult = some ir) (hi : ir.intent = some it) :
    (handleStartTraining projectId nowStr (.error m) s).1 =
      { s with error := jsOr m "Failed to start training. Please try again.",
               trainingLoading := false } := by
  unfold handleStartTraining
  rw [hs]
  dsimp only
  rw [hi]

theorem resolveTrainingDatasetId_none (mode : SelectionMode) (sel : String) :
    resolveTrainingDatasetId mode sel none =
      (if mode = .select ∧ sel ≠ "" then jsParseInt sel else some 1) := by
  unfold resolveTrainingDatasetId
  by_cases h : mode = .select ∧ sel ≠ ""
  · rfl
  · rfl

/-- C3: the dataset id sent in the training request is resolved in order:
the parsed explicit selection in select mode, else a truthy
dataset_info.dataset_id from the latest extraction, else the default 1;
in particular select mode with selection 7 beats an extraction-derived 3. -/
theorem training_dataset_resolution :
    (∀ (projectId : Option Int) (nowStr : String)
        (env : Except String TrainingResponse) (s : BuilderState)
        (ir : IntentExtractionResponse) (it : Intent),
      s.intentResult = some ir → ir.intent = some it →
      ∃ req, (handleStartTraining projectId nowStr env s).2.1 = some req ∧
        req.dataset_id = resolveTrainingDatasetId s.selectionMode
          s.selectedDatasetId (datasetInfoId ir)) ∧
    (∀ (sel : String) (infoId : Option Int), sel ≠ "" →
      resolveTrainingDatasetId .select sel infoId = jsParseInt sel) ∧
    (∀ (mode : SelectionMode) (sel : String) (d : Int),
      ¬(mode = .select ∧ sel ≠ "") → d ≠ 0 →
      resolveTrainingDatasetId mode sel (some d) = some d) ∧
    (∀ (mode : SelectionMode) (sel : String) (infoId : Option Int),
      ¬(mode = .select ∧ sel ≠ "") → (infoId = none ∨ infoId = some 0) →
      resolveTrainingDatasetId mode sel infoId = some 1) ∧
    resolveTrainingDatasetId .select "7" (some 3) = some 7 := by
  refine ⟨?_, ?_, ?_, ?_, ?_⟩
  · intro pid now env s ir it hs hi
    obtain ⟨req, h1, _, h3, _⟩ := handleStartTraining_request pid now env s ir it hs hi
    exact ⟨req, h1, h3⟩
  · intro sel infoId hsel
    unfold resolveTrainingDatasetId
    rw [if_pos ⟨rfl, hsel⟩]
  · intro mode sel d hneg hd
    unfold resolveTrainingDatasetId
    rw [if_neg hneg]
    dsimp only
    rw [if_neg hd]
  · intro mode sel infoId hneg hio
    unfold resolveTrainingDatasetId
    rw [if_neg hneg]
    rcases hio with h | h
    · rw [h]
    · rw [h]
      simp
  · decide

/-- Witness for C3: on the concrete reviewing state with selection 7 and
extraction-derived id 3 the training request resolves its dataset id. -/
theorem training_dataset_resolution_witness :
    reviewingState7.intentResult = some extractionWithInfo3 ∧
    extractionWithInfo3.intent = some {} ∧
    ∃ req, (handleStartTraining (some 1) "now" (.ok {}) reviewingState7).2.1 =
        some req ∧
      req.dataset_id = resolveTrainingDatasetId reviewingState7.selectionMode
        reviewingState7.selectedDatasetId (datasetInfoId extractionWithInfo3) :=
  ⟨rfl, rfl, training_dataset_resolution.1 (some 1) "now" (.ok {}) reviewingState7
    extractionWithInfo3 {} rfl rfl⟩

/-- C7: a failed training call leaves the stored intent result unchanged
and surfaces a non-empty error, and an immediate retry of confirm-train
sends the same intent again while making no extraction call. -/
theorem training_failure_keeps_intent (projectId : Option Int)
    (nowStr m : String) (s : BuilderState)
    (ir : IntentExtractionResponse) (it : Intent)
    (hs : s.intentResult = some ir) (hi : ir.intent = some it) :
    (handleStartTraining projectId nowStr (.error m) s).1.intentResult =
      s.intentResult ∧
    (handleStartTraining projectId nowStr (.error m) s).1.error ≠ "" ∧
    ∀ (nowStr2 : String) (env2 : Except String TrainingResponse),
      ∃ req2,
        (handleStartTraining projectId nowStr2 env2
          (handleStartTraining projectId nowStr (.error m) s).1).2.1 = some req2 ∧
        req2.intent = it ∧
        ∀ c ∈ (handleStartTraining projectId nowStr2 env2
            (handleStartTraining projectId nowStr (.error m) s).1).2.2,
          c.isExtract = false := by
  have hst := handleStartTraining_failure_state projectId nowStr m s ir it hs hi
  refine ⟨?_, ?_, ?_⟩
  · rw [hst]
  · rw [hst]
    show jsOr m "Failed to start training. Please try again." ≠ ""
    unfold jsOr
    by_cases hm : m = ""
    · rw [if_pos hm]
      decide
    · rw [if_neg hm]
      exact hm
  · intro nowStr2 env2
    have hs2 : (handleStartTraining projectId nowStr (.error m) s).1.intentResult =
        some ir := by
      rw [hst]
      exact hs
    obtain ⟨req2, h1, h2, _, h4⟩ := handleStartTraining_request projectId nowStr2
      env2 _ ir it hs2 hi
    refine ⟨req2, h1, h2, ?_⟩
    intro c hc
    rw [h4] at hc
    rw [List.mem_singleton.mp hc]
    rfl

/-- Witness for C7: a failed training on the concrete reviewing state
keeps the stored intent result. -/
theorem training_failure_keeps_intent_witness :
    reviewingState7.intentResult = some extractionWithInfo3 ∧
    (handleStartTraining (some 1) "now" (.error "boom")
        reviewingState7).1.intentResult = reviewingState7.intentResult :=
  ⟨rfl, (training_failure_keeps_intent (some 1) "now" "boom" reviewingState7
    extractionWithInfo3 {} rfl rfl).1⟩

theorem loadModel_ok_intentResult (id : Int) (s : BuilderState) (m : MLModel)
    (it : Intent) (hit : m.intent = some it) :
    (loadModel id (.ok (some m)) s).1.intentResult =
      some (resumedResponse m.id it) := by
  unfold loadModel
  dsimp only
  rw [hit]
  dsimp only
  cases m.dataset with
  | none => rfl
  | some d =>
    dsimp only
    by_cases hd : d = 0
    · rw [if_pos hd]
    · rw [if_neg hd]

/-- C9: resuming a persisted draft model carrying an intent and a non-zero
dataset id populates the session with that intent as a synthetic
extraction result, switches to select mode with that dataset id selected,
makes no extraction call, and leaves the experiment plan and the training
outcome empty. -/
theorem loadModel_resume (id : Int) (s : BuilderState) (m : MLModel)
    (it : Intent) (d : Int)
    (hit : m.intent = some it) (hd : m.dataset = some d) (hdz : d ≠ 0)
    (htr : s.trainingResult = none) :
    loadModel id (.ok (some m)) s =
      ({ s with
          intentResult := some (resumedResponse m.id it),
          selectionMode := .select, selectedDatasetId := toString d,
          loading := false }, [.getModel id]) ∧
    (∀ c ∈ (loadModel id (.ok (some m)) s).2, c.isExtract = false) ∧
    (loadModel id (.ok (some m)) s).1.trainingResult = none ∧
    ((loadModel id (.ok (some m)) s).1.intentResult.bind
      (fun ir => ir.experiment_plan)) = none := by
  have heq : loadModel id (.ok (some m)) s =
      ({ s with
          intentResult := some (resumedResponse m.id it),
          selectionMode := .select, selectedDatasetId := toString d,
          loading := false }, [.getModel id]) := by
    unfold loadModel
    dsimp only
    rw [hit]
    dsimp only
    rw [hd]
    dsimp only
    rw [if_neg hdz]
  refine ⟨heq, ?_, ?_, ?_⟩
  · intro c hc
    rw [heq] at hc
    rw [List.mem_singleton.mp hc]
    rfl
  · rw [heq]
    exact htr
  · rw [heq]
    rfl

/-- Witness for C9: resuming the concrete draft model with dataset 12 on a
fresh session leaves the training outcome empty. -/
theorem loadModel_resume_witness :
    draftModel12.intent = some intentXgb ∧ draftModel12.dataset = some 12 ∧
    (loadModel 7 (.ok (some draftModel12)) {}).1.trainingResult = none :=
  ⟨rfl, rfl,
    (loadModel_resume 7 {} draftModel12 intentXgb 12 rfl rfl (by decide) rfl).2.2.1⟩

/-- C10: every resumed draft gets validation is_valid true with no warnings
and an empty dataset_info, so the extraction-derived dataset-id fallback is
never available after a resume: a subsequent training start resolves its
dataset id from the selected dataset id or the last-resort default 1. -/
theorem resume_validation_and_fallback (id : Int) (s : BuilderState)
    (m : MLModel) (it : Intent) (hit : m.intent = some it) :
    (∃ ir, (loadModel id (.ok (some m)) s).1.intentResult = some ir ∧
      ir.validation = some { is_valid := true, warnings := none } ∧
      ir.dataset_info = some ({} : DatasetInfo) ∧
      datasetInfoId ir = none) ∧
    (∀ (projectId : Option Int) (nowStr : String)
        (env : Except String TrainingResponse),
      ∃ req, (handleStartTraining projectId nowStr env
          (loadModel id (.ok (some m)) s).1).2.1 = some req ∧
        req.dataset_id =
          (if (loadModel id (.ok (some m)) s).1.selectionMode = .select ∧
              (loadModel id (.ok (some m)) s).1.selectedDatasetId ≠ ""
           then jsParseInt (loadModel id (.ok (some m)) s).1.selectedDatasetId
           else some 1)) := by
  have hint := loadModel_ok_intentResult id s m it hit
  refine ⟨⟨_, hint, rfl, rfl, rfl⟩, ?_⟩
  intro projectId nowStr env
  obtain ⟨req, h1, _, h3, _⟩ := handleStartTraining_request projectId nowStr env
    _ _ it hint rfl
  refine ⟨req, h1, ?_⟩
  rw [h3]
  exact resolveTrainingDatasetId_none _ _

/-- Witness for C10: the concrete resumed draft gets is_valid true with no
warnings and an empty dataset profile. -/
theorem resume_validation_and_fallback_witness :
    draftModel12.intent = some intentXgb ∧
    ∃ ir, (loadModel 7 (.ok (some draftModel12)) {}).1.intentResult = some ir ∧
      ir.validation = some { is_valid := true, warnings := none } := by
  refine ⟨rfl, ?_⟩
  obtain ⟨ir, h1, h2, _⟩ :=
    (resume_validation_and_fallback 7 {} draftModel12 intentXgb rfl).1
  exact ⟨ir, h1, h2⟩

end VoidAI
